import Mathlib

/-!
Shallow embedding of `dworthen/updater` (src/updater.go) and proofs about it.

Modelling conventions, following the spec's stated scope boundaries:
* Go maps become association lists with first-match lookup (`lookupStr`).
* The filesystem is an association list from paths to `FileData`
  (content bytes as a `String`, permission mode as a `Nat`).
* HTTP transport is an oracle `Http : String → Option (Nat × String)`
  (`none` = transport error, otherwise status code and body); every issued
  request is recorded in a returned request list so "zero artifact HTTP
  requests" is a statement about that list.
* JSON decoding and archive container parsing are out of scope per the spec
  ("any conforming decoder/reader"); they are passed in as function
  parameters (`unmarshal`, `decodeArchive`), and archives are consumed as
  lists of `ArchiveEntry` (name, regular-file flag, content) — the spec's
  own ArchiveEntry abstraction.
* `runtime.GOOS` / `runtime.GOARCH`, `os.TempDir`, `os.Executable` and the
  stream of `uuid.NewString` results are injected as explicit parameters.
* Environmental filesystem failures (disk full etc.) in the direct-binary
  replacement sequence are injected through a `FailPlan`.
-/

/-- Go `error` values as they occur in updater.go: the distinguished
`NotSupportedError` struct (carrying the platform string) versus every
`fmt.Errorf`-produced error (carrying only a message). -/
inductive GoError where
  | notSupported (platform : String)
  | errorMsg (msg : String)
deriving DecidableEq

/-- First-match association-list lookup, the embedding of Go map indexing
`m[k]` with its `ok` flag (`none` = key absent). -/
def lookupStr {α : Type} : List (String × α) → String → Option α
  | [], _ => none
  | (k, v) :: rest, key => if k = key then some v else lookupStr rest key

/-- One file on disk: its content and its permission mode bits. -/
structure FileData where
  content : String
  mode : Nat
deriving DecidableEq

/-- The filesystem: a finite map from absolute paths to file data. -/
abbrev FS := List (String × FileData)

/-- Lookup of a path on disk. -/
def fsLookup (fs : FS) (path : String) : Option FileData :=
  lookupStr fs path

/-- Remove every binding of `path` (helper for `fsSet` / `fsRemoveFile`). -/
def fsRemoveAll : FS → String → FS
  | [], _ => []
  | (p, d) :: rest, path =>
    if p = path then fsRemoveAll rest path else (p, d) :: fsRemoveAll rest path

/-- Overwrite (or create) the binding of `path`. -/
def fsSet (fs : FS) (path : String) (d : FileData) : FS :=
  (path, d) :: fsRemoveAll fs path

/-- Embedding of `os.Rename(src, dst)`: fails when `src` does not exist,
otherwise moves content and mode to `dst`. -/
def fsRename (fs : FS) (src dst : String) : Except GoError FS :=
  match fsLookup fs src with
  | none => .error (.errorMsg ("rename " ++ src ++ ": no such file or directory"))
  | some d => .ok (fsSet (fsRemoveAll fs src) dst d)

/-- Embedding of `os.WriteFile(path, content, perm)`: creates the file with
mode `perm` when absent; when present, truncates and rewrites the content
but keeps the existing mode (Go applies `perm` only on creation). -/
def fsWriteFile (fs : FS) (path content : String) (perm : Nat) : FS :=
  match fsLookup fs path with
  | some d => fsSet fs path ⟨content, d.mode⟩
  | none => fsSet fs path ⟨content, perm⟩

/-- Embedding of `os.Chmod(path, mode)`: fails when the path does not exist. -/
def fsChmod (fs : FS) (path : String) (mode : Nat) : Except GoError FS :=
  match fsLookup fs path with
  | none => .error (.errorMsg ("chmod " ++ path ++ ": no such file or directory"))
  | some d => .ok (fsSet fs path ⟨d.content, mode⟩)

/-- Embedding of `os.Remove(path)`: fails when the path does not exist. -/
def fsRemoveFile (fs : FS) (path : String) : Except GoError FS :=
  match fsLookup fs path with
  | none => .error (.errorMsg ("remove " ++ path ++ ": no such file or directory"))
  | some _ => .ok (fsRemoveAll fs path)

/-- Kernel-computable equality-friendly decidability for `Except` results. -/
instance {ε α : Type} [DecidableEq ε] [DecidableEq α] : DecidableEq (Except ε α) :=
  fun x y =>
    match x, y with
    | .error a, .error b =>
      if h : a = b then isTrue (by rw [h]) else isFalse (by intro hc; cases hc; exact h rfl)
    | .ok a, .ok b =>
      if h : a = b then isTrue (by rw [h]) else isFalse (by intro hc; cases hc; exact h rfl)
    | .error _, .ok _ => isFalse (by intro hc; cases hc)
    | .ok _, .error _ => isFalse (by intro hc; cases hc)

/-- Embedding of `strings.TrimSpace`: drop whitespace from both ends.
Written over the character list with structural recursion so that concrete
runs reduce inside the kernel. -/
def trimSpace (s : String) : String :=
  String.mk (((s.data.dropWhile Char.isWhitespace).reverse.dropWhile Char.isWhitespace).reverse)

/-- Suffix test over characters (embedding of `strings.HasSuffix`). -/
def strEndsWith (s suffix : String) : Bool :=
  List.isSuffixOf suffix.data s.data

/-- Embedding of `strings.ToLower` for the ASCII names updater.go handles. -/
def strToLower (s : String) : String :=
  String.mk (s.data.map Char.toLower)

/-- Split a character list at every occurrence of `sep` (helper for the
path functions; structural recursion so concrete runs reduce). -/
def splitChar (sep : Char) : List Char → List (List Char)
  | [] => [[]]
  | x :: rest =>
    let r := splitChar sep rest
    if x = sep then [] :: r
    else
      match r with
      | [] => [[x]]
      | h :: t => (x :: h) :: t

/-- Join components with "/" (helper for `filepathDir`). -/
def intercalateSlash : List String → String
  | [] => ""
  | [x] => x
  | x :: rest => x ++ "/" ++ intercalateSlash rest

/-- Embedding of `filepath.Join(a, b)` as used in updater.go (both arguments
are non-empty and already clean there, so joining is plain concatenation
with a separator). -/
def filepathJoin (a b : String) : String := a ++ "/" ++ b

/-- Embedding of `filepath.Base`: "" ↦ ".", all-slashes ↦ "/", otherwise the
last nonempty path component after dropping trailing slashes. -/
def filepathBase (path : String) : String :=
  if path = "" then "."
  else
    match (((splitChar '/' path.data).map String.mk).filter (fun c => c ≠ "")).getLast? with
    | some c => c
    | none => "/"

/-- Embedding of `filepath.Dir` for the clean paths used in updater.go:
everything before the last separator ("." when there is none, "/" for a
root-level path). -/
def filepathDir (path : String) : String :=
  match ((splitChar '/' path.data).map String.mk).dropLast with
  | [] => "."
  | [""] => "/"
  | comps => intercalateSlash comps

/-- The components of a parsed URL that `validateUrl` inspects. -/
structure URL where
  Scheme : String
  Host : String
  Path : String
deriving DecidableEq

/-- Split a character list at the first "://", returning the text before it
and the text after it (`none` when it never occurs). -/
def breakOnScheme : List Char → Option (List Char × List Char)
  | [] => none
  | c :: rest =>
    if List.isPrefixOf [':', '/', '/'] (c :: rest) then some ([], rest.drop 2)
    else
      match breakOnScheme rest with
      | none => none
      | some (a, b) => some (c :: a, b)

/-- Embedding of the `net/url` parse as far as updater.go consumes it:
scheme is the text before "://" (empty when absent), host the text up to
the next "/". Go's parser returns an error only for URLs containing control
characters, which no claim exercises, so the model is total. -/
def parseUrl (s : String) : URL :=
  match breakOnScheme s.data with
  | none => { Scheme := "", Host := "", Path := s }
  | some (scheme, after) =>
    let host := after.takeWhile (fun c => c ≠ '/')
    let path := (after.dropWhile (fun c => c ≠ '/')).drop 1
    { Scheme := String.mk scheme, Host := String.mk host, Path := String.mk path }

/-- Embedding of `url.JoinPath(base, elem)` for the clean inputs updater.go
passes it: base and element joined by a single separator. -/
def urlJoinPath (base elem : String) : String :=
  if strEndsWith base "/" then base ++ elem else base ++ "/" ++ elem

/-- Embedding of `validateUrl` from updater.go: require scheme `https` and a non-empty
host (the source's message typo "Invalud" is kept verbatim). -/
def validateUrl (path : String) : Except GoError Unit :=
  let url := parseUrl path
  if url.Scheme ≠ "https" then
    .error (.errorMsg "Invalid URL scheme. Only https is supported")
  else if url.Host = "" then
    .error (.errorMsg ("Invalud URL. Expecting absolute URL but got " ++ path))
  else
    .ok ()

/-- Embedding of `UpdaterManifest` from updater.go (maps as association lists). -/
structure UpdaterManifest where
  Version : String
  Archive : String
  Binary : String
  Os : List (String × String)
  Arch : List (String × List (String × String))
deriving DecidableEq

/-- Embedding of `UpdaterConfig` from updater.go. -/
structure UpdaterConfig where
  CurrentVersion : String
  BaseUrl : String
  UpdaterConfig : String
deriving DecidableEq

/-- The template-variable struct `variables` from updater.go (named `TmplVariables` here because `variables` is reserved in Lean). -/
structure TmplVariables where
  Os : String
  Arch : String
  ArchiveExt : String
  Ext : String
deriving DecidableEq

/-- The opening brace character, written by code point to keep brace
characters out of literals. -/
def lbrace : Char := Char.ofNat 123

/-- The closing brace character. -/
def rbrace : Char := Char.ofNat 125

/-- A parsed `text/template` node: literal text or a field action. -/
inductive TmplNode where
  | lit (s : String)
  | fld (name : String)
deriving DecidableEq

/-- Scan to the closing action delimiter, returning the action text and the
remaining input; `none` when the action is never closed (a parse error in
`text/template`). -/
def splitTmplAction : List Char → Option (List Char × List Char)
  | [] => none
  | [_] => none
  | c :: c2 :: rest =>
    if c = rbrace ∧ c2 = rbrace then some ([], rest)
    else
      match splitTmplAction (c2 :: rest) with
      | none => none
      | some (a, r) => some (c :: a, r)

/-- Interpret one action's text: `text/template` field actions `.Name`
(with optional surrounding spaces), the only action form updater.go's
manifests can rely on in this embedding. -/
def parseTmplField (act : List Char) : Option String :=
  let t := ((act.dropWhile (fun c => c = ' ')).reverse.dropWhile (fun c => c = ' ')).reverse
  match t with
  | c :: rest => if c = '.' ∧ rest ≠ [] then some (String.mk rest) else none
  | [] => none

/-- Fuel-indexed parser for the `text/template` subset: literal characters,
and field actions delimited by doubled braces. The fuel is set to the input
length plus one by `parseTemplate`, which every recursive call respects. -/
def parseTmplNodes : Nat → List Char → Except String (List TmplNode)
  | 0, _ => .error "template: input exhausted"
  | _, [] => .ok []
  | fuel + 1, c :: rest =>
    if c = lbrace then
      match rest with
      | c2 :: rest2 =>
        if c2 = lbrace then
          match splitTmplAction rest2 with
          | none => .error "template: unclosed action"
          | some (act, rest3) =>
            match parseTmplField act with
            | none => .error "template: unsupported action"
            | some name =>
              match parseTmplNodes fuel rest3 with
              | .error e => .error e
              | .ok nodes => .ok (.fld name :: nodes)
        else
          match parseTmplNodes fuel rest with
          | .error e => .error e
          | .ok nodes => .ok (.lit (String.singleton c) :: nodes)
      | [] => .ok [.lit (String.singleton c)]
    else
      match parseTmplNodes fuel rest with
      | .error e => .error e
      | .ok nodes => .ok (.lit (String.singleton c) :: nodes)

/-- Field resolution against the `variables` struct; an unknown field is an
execution error in `text/template` (struct has no such field). -/
def lookupVariable (v : TmplVariables) (n : String) : Option String :=
  if n = "Os" then some v.Os
  else if n = "Arch" then some v.Arch
  else if n = "ArchiveExt" then some v.ArchiveExt
  else if n = "Ext" then some v.Ext
  else none

/-- Execute parsed template nodes against the variables. -/
def executeTmplNodes (v : TmplVariables) : List TmplNode → Except String String
  | [] => .ok ""
  | .lit s :: rest =>
    match executeTmplNodes v rest with
    | .error e => .error e
    | .ok r => .ok (s ++ r)
  | .fld n :: rest =>
    match lookupVariable v n with
    | none => .error ("template: cannot evaluate field " ++ n)
    | some val =>
      match executeTmplNodes v rest with
      | .error e => .error e
      | .ok r => .ok (val ++ r)

/-- Embedding of `template.New(..).Parse(tmpl)` followed by `Execute` against the
`variables` struct, as updater.go uses `text/template`. -/
def renderTemplate (tmpl : String) (v : TmplVariables) : Except String String :=
  match parseTmplNodes (tmpl.data.length + 1) tmpl.data with
  | .error e => .error e
  | .ok nodes => executeTmplNodes v nodes

/-- Embedding of `GetDownloadInfo` from updater.go, with `runtime.GOOS` / `runtime.GOARCH`
injected as `goos` / `goarch`. Returns `(archiveName, binaryName)`. -/
def GetDownloadInfo (manifest : UpdaterManifest) (goos goarch : String) :
    Except GoError (String × String) :=
  if trimSpace manifest.Binary = "" then
    .error (.errorMsg "Manifest does not specify binary name")
  else
    let archiveExt := if goos = "windows" then ".zip" else ".tar.gz"
    let ext := if goos = "windows" then ".exe" else ""
    let notSupported := GoError.notSupported (goos ++ "/" ++ goarch)
    match lookupStr manifest.Os goos with
    | none => .error notSupported
    | some osLabel =>
      match lookupStr manifest.Arch osLabel with
      | none => .error notSupported
      | some archMap =>
        match lookupStr archMap goarch with
        | none => .error notSupported
        | some archLabel =>
          let vars : TmplVariables := ⟨osLabel, archLabel, archiveExt, ext⟩
          let archiveRes : Except GoError String :=
            if trimSpace manifest.Archive ≠ "" then
              match renderTemplate manifest.Archive vars with
              | .error e => .error (.errorMsg e)
              | .ok s => .ok s
            else .ok ""
          match archiveRes with
          | .error e => .error e
          | .ok archiveName =>
            match renderTemplate manifest.Binary vars with
            | .error e => .error (.errorMsg e)
            | .ok binaryName => .ok (archiveName, binaryName)

/-- The HTTP transport oracle: `none` is a transport error, `some (code, body)`
a completed response. -/
abbrev Http := String → Option (Nat × String)

/-- One `http.NewRequest("GET", ..)` / `client.Do` / status check / `ReadAll`
sequence as it appears three times in updater.go. Returns the body (or the
error) together with the list of URLs actually requested. -/
def httpGet (http : Http) (requestUrl : String) : Except GoError String × List String :=
  match http requestUrl with
  | none => (.error (.errorMsg "network transport error"), [requestUrl])
  | some (status, body) =>
    if status = 200 then (.ok body, [requestUrl])
    else (.error (.errorMsg ("Error getting updater config. Status code: " ++ toString status)), [requestUrl])

/-- Embedding of `GetManifest` from updater.go, with the JSON decoder (`json.Unmarshal`)
injected as `unmarshal` per the spec's "any conforming decoder" boundary.
Returns the manifest (or error) and the list of requested URLs. -/
def GetManifest (http : Http) (unmarshal : String → Except String UpdaterManifest)
    (config : UpdaterConfig) : Except GoError UpdaterManifest × List String :=
  let requestUrl := urlJoinPath config.BaseUrl config.UpdaterConfig
  match validateUrl requestUrl with
  | .error e => (.error e, [])
  | .ok _ =>
    match httpGet http requestUrl with
    | (.error e, reqs) => (.error e, reqs)
    | (.ok body, reqs) =>
      match unmarshal body with
      | .error msg => (.error (.errorMsg msg), reqs)
      | .ok manifest => (.ok manifest, reqs)

/-- Embedding of `CheckForAvailableUpdate` from updater.go. -/
def CheckForAvailableUpdate (http : Http)
    (unmarshal : String → Except String UpdaterManifest)
    (config : UpdaterConfig) : Except GoError (Bool × String) × List String :=
  let currentVersion := trimSpace config.CurrentVersion
  if currentVersion = "" then
    (.error (.errorMsg "Current version not specified"), [])
  else
    match GetManifest http unmarshal config with
    | (.error e, reqs) => (.error e, reqs)
    | (.ok manifest, reqs) =>
      let manifestVersion := trimSpace manifest.Version
      if currentVersion ≠ manifestVersion then (.ok (true, manifestVersion), reqs)
      else (.ok (false, ""), reqs)

/-- Injected environmental failures for the rename / write / chmod steps of
the direct-binary replacement (disk full, permissions, ...). `false`
everywhere means the environment lets every step proceed. -/
structure FailPlan where
  failRename : Bool
  failWrite : Bool
  failChmod : Bool
deriving DecidableEq

/-- Embedding of `downloadBinary` from updater.go. `tempDir` is `os.TempDir()`, `uuid1`
the `uuid.NewString()` result, `binaryPath` the `os.Executable()` result and
`binaryName` the field set by `Update`. Returns (result, requested URLs,
resulting filesystem). -/
def downloadBinary (http : Http) (plan : FailPlan) (fs : FS)
    (tempDir uuid1 binaryPath : String) (config : UpdaterConfig)
    (binaryName : String) : Except GoError Unit × List String × FS :=
  let tempFile := filepathJoin tempDir uuid1
  let requestUrl := urlJoinPath config.BaseUrl binaryName
  match validateUrl requestUrl with
  | .error e => (.error e, [], fs)
  | .ok _ =>
    match httpGet http requestUrl with
    | (.error e, reqs) => (.error e, reqs, fs)
    | (.ok body, reqs) =>
      if plan.failRename then (.error (.errorMsg "rename failed"), reqs, fs)
      else
        match fsRename fs binaryPath tempFile with
        | .error e => (.error e, reqs, fs)
        | .ok fs1 =>
          if plan.failWrite then (.error (.errorMsg "write failed"), reqs, fs1)
          else
            let fs2 := fsWriteFile fs1 binaryPath body 0o644
            if plan.failChmod then (.error (.errorMsg "chmod failed"), reqs, fs2)
            else
              match fsChmod fs2 binaryPath 0o744 with
              | .error e => (.error e, reqs, fs2)
              | .ok fs3 => (.ok (), reqs, fs3)

/-- The spec's ArchiveEntry abstraction over one tar/zip entry: its name
inside the container, whether it is a regular file (`tar.TypeReg` /
`FileInfo().Mode().IsRegular()`), and its content. -/
structure ArchiveEntry where
  name : String
  isReg : Bool
  content : String
deriving DecidableEq

/-- The entry loop of `extractZip` from updater.go, over the container's
entries in order. `supply` is the stream of `(filename, tempName)` pairs
produced by the two `uuid.NewString()` calls in each basename-matching
iteration. On a regular-file basename match the source creates the file at
`destination/filename`, copies the entry content, renames the running
executable to `tempDir/tempName`, renames the extracted file onto the
executable path, chmods it 0744 and then `break`s out of the loop. Returns
(`created` flag or error, filesystem). -/
def extractZipLoop (binaryName binaryPath destination tempDir : String)
    (supply : List (String × String)) (fs : FS) :
    List ArchiveEntry → Except GoError Bool × FS
  | [] => (.ok false, fs)
  | e :: rest =>
    if filepathBase e.name = binaryName then
      let pair := supply.headD ("", "")
      let tempPath := filepathJoin tempDir pair.2
      let path := filepathJoin destination pair.1
      if e.isReg then
        let fs1 := fsWriteFile fs path e.content 0o666
        match fsRename fs1 binaryPath tempPath with
        | .error err => (.error err, fs1)
        | .ok fs2 =>
          match fsRename fs2 path binaryPath with
          | .error err => (.error err, fs2)
          | .ok fs3 =>
            match fsChmod fs3 binaryPath 0o744 with
            | .error err => (.error err, fs3)
            | .ok fs4 => (.ok true, fs4)
      else
        extractZipLoop binaryName binaryPath destination tempDir supply.tail fs rest
    else
      extractZipLoop binaryName binaryPath destination tempDir supply fs rest

/-- Embedding of `extractZip` from updater.go: run the entry loop; when no regular entry
matched, report the no-binary-matched error. The downloaded archive at
`src` is never removed in this path. -/
def extractZip (fs : FS) (src binaryPath tempDir : String)
    (supply : List (String × String)) (archiveName binaryName : String)
    (entries : List ArchiveEntry) : Except GoError Unit × FS :=
  let destination := filepathDir src
  match extractZipLoop binaryName binaryPath destination tempDir supply fs entries with
  | (.error e, fs1) => (.error e, fs1)
  | (.ok created, fs1) =>
    if created = false then
      (.error (.errorMsg ("Error extracting binary from " ++ archiveName ++ ". No binary matched the name " ++ binaryName)), fs1)
    else
      (.ok (), fs1)

/-- The entry loop of `extractTarball` from updater.go. The crucial
difference from the zip loop: the source's `break` after a successful
extraction sits inside a `switch`, so it exits only the switch and the
`for` loop continues with the remaining entries — every further
regular-file basename match repeats the extract-and-swap sequence. -/
def extractTarLoop (binaryName binaryPath destination tempDir : String)
    (supply : List (String × String)) (created : Bool) (fs : FS) :
    List ArchiveEntry → Except GoError Bool × FS
  | [] => (.ok created, fs)
  | e :: rest =>
    if filepathBase e.name = binaryName then
      let pair := supply.headD ("", "")
      let tempPath := filepathJoin tempDir pair.2
      let path := filepathJoin destination pair.1
      if e.isReg then
        let fs1 := fsWriteFile fs path e.content 0o666
        match fsRename fs1 binaryPath tempPath with
        | .error err => (.error err, fs1)
        | .ok fs2 =>
          match fsRename fs2 path binaryPath with
          | .error err => (.error err, fs2)
          | .ok fs3 =>
            match fsChmod fs3 binaryPath 0o744 with
            | .error err => (.error err, fs3)
            | .ok fs4 =>
              extractTarLoop binaryName binaryPath destination tempDir supply.tail true fs4 rest
      else
        extractTarLoop binaryName binaryPath destination tempDir supply.tail created fs rest
    else
      extractTarLoop binaryName binaryPath destination tempDir supply created fs rest

/-- Embedding of `extractTarball` from updater.go: run the entry loop; when no regular
entry matched, report the no-binary-matched error; otherwise remove the
downloaded archive at `src` (`return os.Remove(src)`). -/
def extractTarball (fs : FS) (src binaryPath tempDir : String)
    (supply : List (String × String)) (archiveName binaryName : String)
    (entries : List ArchiveEntry) : Except GoError Unit × FS :=
  let destination := filepathDir src
  match extractTarLoop binaryName binaryPath destination tempDir supply false fs entries with
  | (.error e, fs1) => (.error e, fs1)
  | (.ok created, fs1) =>
    if created = false then
      (.error (.errorMsg ("Error extracting binary from " ++ archiveName ++ ". No binary matched the name " ++ binaryName)), fs1)
    else
      match fsRemoveFile fs1 src with
      | .error e => (.error e, fs1)
      | .ok fs2 => (.ok (), fs2)

/-- Embedding of `downloadArchive` from updater.go. `decodeArchive` stands for the
tar/gzip/zip readers (out-of-scope container parsing), turning the
downloaded bytes into the ordered entry list both extractors consume;
`uuid1` is the temp filename for the downloaded archive and `supply` the
uuid stream the extractors draw from. -/
def downloadArchive (http : Http) (fs : FS) (tempDir uuid1 binaryPath : String)
    (supply : List (String × String)) (config : UpdaterConfig)
    (archiveName binaryName : String)
    (decodeArchive : String → List ArchiveEntry) :
    Except GoError Unit × List String × FS :=
  let tempFile := filepathJoin tempDir uuid1
  let requestUrl := urlJoinPath config.BaseUrl archiveName
  match validateUrl requestUrl with
  | .error e => (.error e, [], fs)
  | .ok _ =>
    match httpGet http requestUrl with
    | (.error e, reqs) => (.error e, reqs, fs)
    | (.ok body, reqs) =>
      let fs1 := fsWriteFile fs tempFile body 0o644
      if strEndsWith (strToLower archiveName) ".tar.gz" then
        match extractTarball fs1 tempFile binaryPath tempDir supply archiveName binaryName (decodeArchive body) with
        | (r, fs2) => (r, reqs, fs2)
      else if strEndsWith (strToLower archiveName) ".zip" then
        match extractZip fs1 tempFile binaryPath tempDir supply archiveName binaryName (decodeArchive body) with
        | (r, fs2) => (r, reqs, fs2)
      else
        (.error (.errorMsg ("Error. Only .tar.gz or .zip archives are supported. Got " ++ archiveName)), reqs, fs1)

/-- Embedding of `Update` from updater.go: fetch the manifest, resolve names, dispatch to
the archive or direct-binary download. Never consults
`config.CurrentVersion`. Returns (result, all requested URLs, filesystem). -/
def Update (http : Http) (unmarshal : String → Except String UpdaterManifest)
    (goos goarch : String) (plan : FailPlan) (fs : FS)
    (tempDir binaryPath uuid1 : String) (supply : List (String × String))
    (decodeArchive : String → List ArchiveEntry)
    (config : UpdaterConfig) : Except GoError Unit × List String × FS :=
  match GetManifest http unmarshal config with
  | (.error e, reqs) => (.error e, reqs, fs)
  | (.ok manifest, reqs) =>
    match GetDownloadInfo manifest goos goarch with
    | .error e => (.error e, reqs, fs)
    | .ok (archiveName, binaryName) =>
      if archiveName ≠ "" then
        match downloadArchive http fs tempDir uuid1 binaryPath supply config archiveName binaryName decodeArchive with
        | (r, reqs2, fs2) => (r, reqs ++ reqs2, fs2)
      else
        match downloadBinary http plan fs tempDir uuid1 binaryPath config binaryName with
        | (r, reqs2, fs2) => (r, reqs ++ reqs2, fs2)

/-! Concrete scenario used by several witnesses: a manifest at
`https://example.com/updater.config.json` (decoded from the body
"MANIFEST") naming the direct binary `tool` served at
`https://example.com/tool`. -/

/-- The running executable's path in the concrete scenarios. -/
def binPath : String := "/usr/local/bin/tool"

/-- The concrete well-formed manifest: version 1.0.0, no archive, direct
binary template `tool`, linux/amd64 supported. -/
def m0 : UpdaterManifest :=
  ⟨"1.0.0", "", "tool", [("linux", "linux")], [("linux", [("amd64", "amd64")])]⟩

/-- A conforming JSON decoder for the concrete scenario: the body
"MANIFEST" decodes to `m0`, everything else is a decode error. -/
def um0 : String → Except String UpdaterManifest :=
  fun s => if s = "MANIFEST" then .ok m0 else .error "invalid json"

/-- Manifest fetch URL in the concrete scenario. -/
def murl : String := "https://example.com/updater.config.json"

/-- Binary fetch URL in the concrete scenario. -/
def turl : String := "https://example.com/tool"

/-- The network in the concrete scenario: serves the manifest body and the
new binary body "NEWBIN", nothing else. -/
def http0 : Http := fun u =>
  if u = murl then some (200, "MANIFEST")
  else if u = turl then some (200, "NEWBIN")
  else none

/-- Config whose current version equals the manifest version. -/
def cfg0 : UpdaterConfig := ⟨"1.0.0", "https://example.com", "updater.config.json"⟩

/-- Config whose current version differs from the manifest version. -/
def cfg2 : UpdaterConfig := ⟨"2.0.0", "https://example.com", "updater.config.json"⟩

/-- Initial filesystem: only the running executable. -/
def fs0 : FS := [(binPath, ⟨"OLDBIN", 0o755⟩)]

/-- The environment that lets every replacement step proceed. -/
def planOk : FailPlan := ⟨false, false, false⟩

/-- A container reader returning no entries (unused in direct-binary runs). -/
def noEntries : String → List ArchiveEntry := fun _ => []

/-- A manifest supporting only linux, used for the unsupported-platform runs. -/
def mLinuxOnly : UpdaterManifest := ⟨"1.0.0", "", "tool", [("linux", "Linux")], []⟩

/-- Decoder serving `mLinuxOnly` for the body "MANIFEST". -/
def umLinuxOnly : String → Except String UpdaterManifest :=
  fun s => if s = "MANIFEST" then .ok mLinuxOnly else .error "invalid json"

/-- Config whose base URL uses plain http (invalid per `validateUrl`). -/
def cfgHttp : UpdaterConfig := ⟨"1.0.0", "http://example.com", "updater.config.json"⟩

/-- Temp path of the downloaded tarball in the extraction scenarios. -/
def tarSrc : String := "/tmp/arch.tar.gz"

/-- Filesystem holding the downloaded tarball and the running executable. -/
def tarFsIn : FS := [(tarSrc, ⟨"TARBYTES", 0o644⟩), (binPath, ⟨"OLDBIN", 0o755⟩)]

/-- Temp path of the downloaded zip in the extraction scenarios. -/
def zipSrc : String := "/tmp/arch.zip"

/-- Filesystem holding the downloaded zip and the running executable. -/
def zipFsIn : FS := [(zipSrc, ⟨"ZIPBYTES", 0o644⟩), (binPath, ⟨"OLDBIN", 0o755⟩)]

/-- Two fresh uuid pairs for the extraction scenarios. -/
def supply2 : List (String × String) := [("f1", "t1"), ("f2", "t2")]

/-- An archive containing a single regular entry matching `tool`. -/
def oneTool : List ArchiveEntry := [⟨"dir/tool", true, "NEW"⟩]

/-- An archive containing two regular entries whose basenames both match
`tool`, with different contents. -/
def twoTools : List ArchiveEntry := [⟨"dir/tool", true, "FIRST"⟩, ⟨"other/tool", true, "SECOND"⟩]

/-! Association-list and filesystem lookup lemmas shared by the proofs. -/

/-- Looking up the path just set yields the new data. -/
theorem fsLookup_set_self (fs : FS) (p : String) (d : FileData) :
    fsLookup (fsSet fs p d) p = some d := by
  simp [fsLookup, fsSet, lookupStr]

/-- Removing `p` does not change lookups at other paths. -/
theorem fsLookup_removeAll_other (fs : FS) (p q : String) (h : q ≠ p) :
    fsLookup (fsRemoveAll fs p) q = fsLookup fs q := by
  induction fs with
  | nil => rfl
  | cons kv rest ih =>
    obtain ⟨k, v⟩ := kv
    by_cases hk : k = p
    · simp only [fsLookup, fsRemoveAll, lookupStr, if_pos hk] at ih ⊢
      rw [ih]
      rw [if_neg (by rw [hk]; exact fun hc => h hc.symm)]
    · simp only [fsLookup, fsRemoveAll, lookupStr, if_neg hk] at ih ⊢
      by_cases hq : k = q
      · simp [lookupStr, hq]
      · simp only [lookupStr, if_neg hq]
        exact ih

/-- After removing `p`, looking up `p` yields nothing. -/
theorem fsLookup_removeAll_self (fs : FS) (p : String) :
    fsLookup (fsRemoveAll fs p) p = none := by
  induction fs with
  | nil => rfl
  | cons kv rest ih =>
    obtain ⟨k, v⟩ := kv
    by_cases hk : k = p
    · simp only [fsLookup, fsRemoveAll, lookupStr, if_pos hk] at ih ⊢
      exact ih
    · simp only [fsLookup, fsRemoveAll, lookupStr, if_neg hk] at ih ⊢
      exact ih

/-- Setting `p` does not change lookups at other paths. -/
theorem fsLookup_set_other (fs : FS) (p q : String) (d : FileData) (h : q ≠ p) :
    fsLookup (fsSet fs p d) q = fsLookup fs q := by
  have hpq : p ≠ q := fun hc => h hc.symm
  simp only [fsSet, fsLookup, lookupStr, if_neg hpq]
  exact fsLookup_removeAll_other fs p q h

/-! Claim theorems. -/

/-- Claim C2: when the current version is not blank and the manifest fetch
succeeds, `CheckForAvailableUpdate` reports an available update exactly when
the trimmed current version differs from the trimmed manifest version (so it
reports none when the two differ only in surrounding whitespace), by plain
string inequality with no semantic-version parsing. -/
theorem checkForAvailableUpdate_iff_trim_differs
    (http : Http) (unmarshal : String → Except String UpdaterManifest)
    (config : UpdaterConfig) (m : UpdaterManifest) (reqs : List String)
    (hm : GetManifest http unmarshal config = (.ok m, reqs))
    (hv : trimSpace config.CurrentVersion ≠ "") :
    CheckForAvailableUpdate http unmarshal config =
      (if trimSpace config.CurrentVersion ≠ trimSpace m.Version
       then (.ok (true, trimSpace m.Version), reqs)
       else (.ok (false, ""), reqs)) := by
  unfold CheckForAvailableUpdate
  rw [if_neg hv, hm]

/-- Witness for C2 at a concrete input: current version 2.0.0 against
manifest version 1.0.0 over the concrete network. -/
theorem checkForAvailableUpdate_iff_trim_differs_witness :
    CheckForAvailableUpdate http0 um0 cfg2 =
      (if trimSpace cfg2.CurrentVersion ≠ trimSpace m0.Version
       then (.ok (true, trimSpace m0.Version), [murl])
       else (.ok (false, ""), [murl])) :=
  checkForAvailableUpdate_iff_trim_differs http0 um0 cfg2 m0 [murl] (by decide) (by decide)

/-- Claim C8 counterexample: updater.go renders names with Go
`text/template`, whose actions are delimited by doubled braces; the
single-brace template named by the claim is pure literal text, so it renders
to itself and not to "linux-x86_64.tar.gz". -/
theorem renderTemplate_single_brace_literal :
    renderTemplate "\x7bOS\x7d-\x7bArch\x7d\x7bArchiveExt\x7d" ⟨"linux", "x86_64", ".tar.gz", ""⟩ =
      .ok "\x7bOS\x7d-\x7bArch\x7d\x7bArchiveExt\x7d" ∧
    ("\x7bOS\x7d-\x7bArch\x7d\x7bArchiveExt\x7d" : String) ≠ "linux-x86_64.tar.gz" :=
  ⟨by decide, by decide⟩

/-- Claim C8 (amended): template rendering is deterministic — equal template
and variables always render to equal output — and rendering the Go
text/template form of the claimed template, "{{.Os}}-{{.Arch}}{{.ArchiveExt}}",
with the variables (os linux, arch x86_64, archiveExt .tar.gz) yields
exactly "linux-x86_64.tar.gz". -/
theorem renderTemplate_deterministic_and_example :
    (∀ (t₁ t₂ : String) (v₁ v₂ : TmplVariables),
       t₁ = t₂ → v₁ = v₂ → renderTemplate t₁ v₁ = renderTemplate t₂ v₂) ∧
    renderTemplate "\x7b\x7b.Os\x7d\x7d-\x7b\x7b.Arch\x7d\x7d\x7b\x7b.ArchiveExt\x7d\x7d"
        ⟨"linux", "x86_64", ".tar.gz", ""⟩ = .ok "linux-x86_64.tar.gz" :=
  ⟨fun _ _ _ _ ht hv => by rw [ht, hv], by decide⟩

/-- Witness for C8's determinism conjunct at a concrete input. -/
theorem renderTemplate_deterministic_and_example_witness :
    renderTemplate "tool" ⟨"linux", "x86_64", ".tar.gz", ""⟩ =
      renderTemplate "tool" ⟨"linux", "x86_64", ".tar.gz", ""⟩ :=
  renderTemplate_deterministic_and_example.1 "tool" "tool"
    ⟨"linux", "x86_64", ".tar.gz", ""⟩ ⟨"linux", "x86_64", ".tar.gz", ""⟩ rfl rfl

/-- Claim C9 counterexample: a manifest whose binary template is the
non-blank string "{{.Ext}}" renders to the empty string on linux yet
`GetDownloadInfo` succeeds, returning an empty binary name — so a manifest
whose binary template renders empty CAN yield a successful resolution. -/
theorem getDownloadInfo_empty_rendered_binary_succeeds :
    GetDownloadInfo
        ⟨"1.0.0", "", "\x7b\x7b.Ext\x7d\x7d", [("linux", "linux")], [("linux", [("amd64", "amd64")])]⟩
        "linux" "amd64" = .ok ("", "") := by
  decide

/-- Claim C9 (amended): whenever `GetDownloadInfo` succeeds, the manifest's
binary TEMPLATE string is non-blank after trimming (a blank template cannot
resolve successfully); the rendered binary name itself, however, may be
empty, as the counterexample shows. -/
theorem getDownloadInfo_ok_template_nonblank
    (m : UpdaterManifest) (goos goarch : String) (p : String × String)
    (h : GetDownloadInfo m goos goarch = .ok p) :
    trimSpace m.Binary ≠ "" := by
  intro hb
  unfold GetDownloadInfo at h
  rw [if_pos hb] at h
  exact Except.noConfusion h

/-- Witness for C9 (amended) at a concrete successful resolution. -/
theorem getDownloadInfo_ok_template_nonblank_witness :
    trimSpace m0.Binary ≠ "" :=
  getDownloadInfo_ok_template_nonblank m0 "linux" "amd64" ("", "tool") (by decide)

/-- Helper for C5: `validateUrl` rejects every joined URL whose scheme is not https or
whose host is empty (helper for C5). -/
theorem validateUrl_invalid (u : String)
    (h : (parseUrl u).Scheme ≠ "https" ∨ (parseUrl u).Host = "") :
    ∃ e, validateUrl u = .error e := by
  simp only [validateUrl]
  by_cases hs : (parseUrl u).Scheme = "https"
  · have hh : (parseUrl u).Host = "" := h.resolve_left (fun hc => hc hs)
    exact ⟨.errorMsg ("Invalud URL. Expecting absolute URL but got " ++ u),
      by rw [if_neg (fun hc => hc hs), if_pos hh]⟩
  · exact ⟨.errorMsg "Invalid URL scheme. Only https is supported", by rw [if_pos hs]⟩

/-- Claim C5: each of the three GET-issuing operations (manifest fetch,
direct binary download, archive download) joins the base URL with the
filename and validates the result first; when the joined URL's scheme is
not https or its host is empty, the operation fails and its request list is
empty — no HTTP request is made (and the filesystem is untouched). -/
theorem invalid_url_means_no_request
    (http : Http) (unmarshal : String → Except String UpdaterManifest)
    (plan : FailPlan) (fs : FS) (tempDir uuid1 binaryPath : String)
    (supply : List (String × String)) (decodeArchive : String → List ArchiveEntry)
    (config : UpdaterConfig) (binaryName archiveName : String) :
    ((parseUrl (urlJoinPath config.BaseUrl config.UpdaterConfig)).Scheme ≠ "https" ∨
       (parseUrl (urlJoinPath config.BaseUrl config.UpdaterConfig)).Host = "" →
     ∃ e, GetManifest http unmarshal config = (.error e, [])) ∧
    ((parseUrl (urlJoinPath config.BaseUrl binaryName)).Scheme ≠ "https" ∨
       (parseUrl (urlJoinPath config.BaseUrl binaryName)).Host = "" →
     ∃ e, downloadBinary http plan fs tempDir uuid1 binaryPath config binaryName = (.error e, [], fs)) ∧
    ((parseUrl (urlJoinPath config.BaseUrl archiveName)).Scheme ≠ "https" ∨
       (parseUrl (urlJoinPath config.BaseUrl archiveName)).Host = "" →
     ∃ e, downloadArchive http fs tempDir uuid1 binaryPath supply config archiveName binaryName decodeArchive = (.error e, [], fs)) := by
  refine ⟨fun h => ?_, fun h => ?_, fun h => ?_⟩
  · obtain ⟨e, he⟩ := validateUrl_invalid _ h
    exact ⟨e, by simp only [GetManifest, he]⟩
  · obtain ⟨e, he⟩ := validateUrl_invalid _ h
    exact ⟨e, by simp only [downloadBinary, he]⟩
  · obtain ⟨e, he⟩ := validateUrl_invalid _ h
    exact ⟨e, by simp only [downloadArchive, he]⟩

/-- Witness for C5: over an http (not https) base URL all three operations
fail with an empty request list. -/
theorem invalid_url_means_no_request_witness :
    (∃ e, GetManifest http0 um0 cfgHttp = (.error e, [])) ∧
    (∃ e, downloadBinary http0 planOk fs0 "/tmp" "uuid-1" binPath cfgHttp "tool" = (.error e, [], fs0)) ∧
    (∃ e, downloadArchive http0 fs0 "/tmp" "uuid-1" binPath [] cfgHttp "a.tar.gz" "tool" noEntries = (.error e, [], fs0)) := by
  have h := invalid_url_means_no_request http0 um0 planOk fs0 "/tmp" "uuid-1" binPath [] noEntries cfgHttp "tool" "a.tar.gz"
  exact ⟨h.1 (by decide), h.2.1 (by decide), h.2.2 (by decide)⟩

/-- Claim C4 counterexample: a manifest whose binary template is blank and
whose os map is empty hits the blank-binary check first, so resolution on an
unmapped platform does NOT fail with `NotSupportedError` as the claim's
universal statement requires. -/
theorem getDownloadInfo_blank_binary_shadows_not_supported :
    GetDownloadInfo ⟨"1.0.0", "", "", [], []⟩ "linux" "amd64" =
      .error (.errorMsg "Manifest does not specify binary name") ∧
    GetDownloadInfo ⟨"1.0.0", "", "", [], []⟩ "linux" "amd64" ≠
      .error (.notSupported "linux/amd64") :=
  ⟨by decide, by decide⟩

/-- Claim C4 (amended): for every manifest whose binary template is
non-blank, whenever the runtime OS is absent from the os map, or the mapped
published OS is absent from the arch map, or the runtime arch is absent
from that OS's sub-map, `Update` fails with `NotSupportedError` carrying the
runtime "os/arch" platform string, and its request list is exactly the
manifest-fetch requests — zero artifact HTTP requests are made and the
filesystem is untouched. -/
theorem update_not_supported_no_artifact_request
    (http : Http) (unmarshal : String → Except String UpdaterManifest)
    (goos goarch : String) (plan : FailPlan) (fs : FS)
    (tempDir binaryPath uuid1 : String) (supply : List (String × String))
    (decodeArchive : String → List ArchiveEntry)
    (config : UpdaterConfig) (m : UpdaterManifest) (reqs : List String)
    (hm : GetManifest http unmarshal config = (.ok m, reqs))
    (hb : trimSpace m.Binary ≠ "")
    (habs : lookupStr m.Os goos = none ∨
            (∃ osLabel, lookupStr m.Os goos = some osLabel ∧ lookupStr m.Arch osLabel = none) ∨
            (∃ osLabel archMap, lookupStr m.Os goos = some osLabel ∧
               lookupStr m.Arch osLabel = some archMap ∧ lookupStr archMap goarch = none)) :
    Update http unmarshal goos goarch plan fs tempDir binaryPath uuid1 supply decodeArchive config =
      (.error (.notSupported (goos ++ "/" ++ goarch)), reqs, fs) := by
  have hgdi : GetDownloadInfo m goos goarch = .error (.notSupported (goos ++ "/" ++ goarch)) := by
    unfold GetDownloadInfo
    rw [if_neg hb]
    rcases habs with h1 | ⟨osl, h1, h2⟩ | ⟨osl, am, h1, h2, h3⟩
    · simp only [h1]
    · simp only [h1, h2]
    · simp only [h1, h2, h3]
  unfold Update
  simp only [hm, hgdi]

/-- Witness for C4 (amended): a freebsd/amd64 runtime against the
linux-only manifest makes only the manifest request. -/
theorem update_not_supported_no_artifact_request_witness :
    Update http0 umLinuxOnly "freebsd" "amd64" planOk fs0 "/tmp" binPath "uuid-1" [] noEntries cfg0 =
      (.error (.notSupported ("freebsd" ++ "/" ++ "amd64")), [murl], fs0) :=
  update_not_supported_no_artifact_request http0 umLinuxOnly "freebsd" "amd64" planOk fs0
    "/tmp" binPath "uuid-1" [] noEntries cfg0 mLinuxOnly [murl]
    (by decide) (by decide) (Or.inl (by decide))

/-- The zip entry loop leaves the filesystem untouched and reports no
creation when no entry is a regular file whose basename matches. -/
theorem extractZipLoop_no_match
    (binaryName binaryPath destination tempDir : String) (fs : FS)
    (entries : List ArchiveEntry) (supply : List (String × String))
    (hnm : ∀ e ∈ entries, ¬(filepathBase e.name = binaryName ∧ e.isReg = true)) :
    extractZipLoop binaryName binaryPath destination tempDir supply fs entries = (.ok false, fs) := by
  induction entries generalizing supply with
  | nil => rfl
  | cons e rest ih =>
    have he := hnm e (List.mem_cons_self e rest)
    have hrest : ∀ x ∈ rest, ¬(filepathBase x.name = binaryName ∧ x.isReg = true) :=
      fun x hx => hnm x (List.mem_cons_of_mem e hx)
    by_cases hb : filepathBase e.name = binaryName
    · have hreg : e.isReg = false := by
        cases hr : e.isReg
        · rfl
        · exact absurd ⟨hb, hr⟩ he
      simp only [extractZipLoop, if_pos hb, hreg, Bool.false_eq_true, if_false]
      exact ih supply.tail hrest
    · simp only [extractZipLoop, if_neg hb]
      exact ih supply hrest

/-- The tar entry loop leaves the filesystem and the `created` flag
untouched when no entry is a regular file whose basename matches. -/
theorem extractTarLoop_no_match
    (binaryName binaryPath destination tempDir : String) (created : Bool) (fs : FS)
    (entries : List ArchiveEntry) (supply : List (String × String))
    (hnm : ∀ e ∈ entries, ¬(filepathBase e.name = binaryName ∧ e.isReg = true)) :
    extractTarLoop binaryName binaryPath destination tempDir supply created fs entries = (.ok created, fs) := by
  induction entries generalizing supply with
  | nil => rfl
  | cons e rest ih =>
    have he := hnm e (List.mem_cons_self e rest)
    have hrest : ∀ x ∈ rest, ¬(filepathBase x.name = binaryName ∧ x.isReg = true) :=
      fun x hx => hnm x (List.mem_cons_of_mem e hx)
    by_cases hb : filepathBase e.name = binaryName
    · have hreg : e.isReg = false := by
        cases hr : e.isReg
        · rfl
        · exact absurd ⟨hb, hr⟩ he
      simp only [extractTarLoop, if_pos hb, hreg, Bool.false_eq_true, if_false]
      exact ih supply.tail hrest
    · simp only [extractTarLoop, if_neg hb]
      exact ih supply hrest

/-- Claim C6: for every archive whose entries contain no regular file with a
basename equal to the target binary name — including archives with zero
entries — both the zip and the tar.gz extractor return the
binary-not-found error naming the archive and the binary, and the
filesystem (in particular the executable path) is returned unchanged. -/
theorem extract_no_match_binary_not_found
    (fs : FS) (src binaryPath tempDir archiveName binaryName : String)
    (supply : List (String × String)) (entries : List ArchiveEntry)
    (hnm : ∀ e ∈ entries, ¬(filepathBase e.name = binaryName ∧ e.isReg = true)) :
    extractZip fs src binaryPath tempDir supply archiveName binaryName entries =
      (.error (.errorMsg ("Error extracting binary from " ++ archiveName ++ ". No binary matched the name " ++ binaryName)), fs) ∧
    extractTarball fs src binaryPath tempDir supply archiveName binaryName entries =
      (.error (.errorMsg ("Error extracting binary from " ++ archiveName ++ ". No binary matched the name " ++ binaryName)), fs) := by
  constructor
  · simp only [extractZip]
    rw [extractZipLoop_no_match binaryName binaryPath (filepathDir src) tempDir fs entries supply hnm]
    rfl
  · simp only [extractTarball]
    rw [extractTarLoop_no_match binaryName binaryPath (filepathDir src) tempDir false fs entries supply hnm]
    rfl

/-- Witness for C6 at a concrete input: an archive whose only entry has a
matching basename but is a directory (not a regular file). -/
theorem extract_no_match_binary_not_found_witness :
    extractZip zipFsIn zipSrc binPath "/tmp" supply2 "arch.zip" "tool" [⟨"dir/tool", false, ""⟩] =
      (.error (.errorMsg ("Error extracting binary from " ++ "arch.zip" ++ ". No binary matched the name " ++ "tool")), zipFsIn) ∧
    extractTarball zipFsIn zipSrc binPath "/tmp" supply2 "arch.zip" "tool" [⟨"dir/tool", false, ""⟩] =
      (.error (.errorMsg ("Error extracting binary from " ++ "arch.zip" ++ ". No binary matched the name " ++ "tool")), zipFsIn) :=
  extract_no_match_binary_not_found zipFsIn zipSrc binPath "/tmp" "arch.zip" "tool" supply2
    [⟨"dir/tool", false, ""⟩] (by decide)

/-- Claim C7 counterexample: a successful zip extraction leaves the
downloaded archive file in place — `extractZip` has no removal step, so
"the downloaded archive temp file is deleted after a successful extraction"
fails for the zip container. -/
theorem extractZip_success_keeps_archive :
    (extractZip zipFsIn zipSrc binPath "/tmp" supply2 "arch.zip" "tool" oneTool).1 = .ok () ∧
    fsLookup (extractZip zipFsIn zipSrc binPath "/tmp" supply2 "arch.zip" "tool" oneTool).2 zipSrc =
      some ⟨"ZIPBYTES", 0o644⟩ :=
  ⟨by decide, by decide⟩

/-- Claim C7 (amended): after a successful tar.gz extraction the downloaded
archive temp file is deleted (for every archive and filesystem), and — as
the concrete single-match run shows — the only file left behind in the temp
directory is the renamed pre-update binary; a successful zip extraction, by
contrast, leaves the downloaded archive file in place (see the
counterexample). -/
theorem extractTarball_success_removes_archive :
    (∀ (fs : FS) (src binaryPath tempDir archiveName binaryName : String)
       (supply : List (String × String)) (entries : List ArchiveEntry) (fsOut : FS),
       extractTarball fs src binaryPath tempDir supply archiveName binaryName entries = (.ok (), fsOut) →
       fsLookup fsOut src = none) ∧
    extractTarball tarFsIn tarSrc binPath "/tmp" supply2 "arch.tar.gz" "tool" oneTool =
      (.ok (), [(binPath, ⟨"NEW", 0o744⟩), ("/tmp/t1", ⟨"OLDBIN", 0o755⟩)]) := by
  constructor
  · intro fs src binaryPath tempDir archiveName binaryName supply entries fsOut h
    simp only [extractTarball] at h
    rcases hl : extractTarLoop binaryName binaryPath (filepathDir src) tempDir supply false fs entries with ⟨r, fs1⟩
    rw [hl] at h
    cases r with
    | error e => simp at h
    | ok created =>
      cases created with
      | false => simp at h
      | true =>
        replace h : (match fsRemoveFile fs1 src with
            | Except.error e => ((Except.error e : Except GoError Unit), fs1)
            | Except.ok fs2 => (Except.ok (), fs2)) = (Except.ok (), fsOut) := h
        cases hs : fsLookup fs1 src with
        | none =>
          unfold fsRemoveFile at h
          simp only [hs] at h
          exact absurd h (by simp)
        | some d =>
          unfold fsRemoveFile at h
          simp only [hs] at h
          have hfs : fsOut = fsRemoveAll fs1 src := by
            injection h with h1 h2
            exact h2.symm
          rw [hfs]
          exact fsLookup_removeAll_self fs1 src
  · decide

/-- Witness for C7 (amended) at the concrete single-match tarball. -/
theorem extractTarball_success_removes_archive_witness :
    fsLookup (extractTarball tarFsIn tarSrc binPath "/tmp" supply2 "arch.tar.gz" "tool" oneTool).2 tarSrc = none :=
  extractTarball_success_removes_archive.1 tarFsIn tarSrc binPath "/tmp" "arch.tar.gz" "tool"
    supply2 oneTool (extractTarball tarFsIn tarSrc binPath "/tmp" supply2 "arch.tar.gz" "tool" oneTool).2
    (by decide)

/-- Claim C3: in `extractTarball` the source's `break` after a successful
extraction only exits the type `switch`, so the entry loop continues past
the first regular-file match: on a tarball with two matching regular
entries ("FIRST" then "SECOND"), the second entry is also extracted — the
final executable holds "SECOND" and the intermediate binary ("FIRST") is
parked at the second temp path. The zip loop, whose `break` exits the
`for`, stops at the first match as the claim states. -/
theorem extractTarball_processes_entries_after_first_match :
    extractTarball tarFsIn tarSrc binPath "/tmp" supply2 "arch.tar.gz" "tool" twoTools =
      (.ok (), [(binPath, ⟨"SECOND", 0o744⟩), ("/tmp/t2", ⟨"FIRST", 0o744⟩), ("/tmp/t1", ⟨"OLDBIN", 0o755⟩)]) ∧
    extractZip zipFsIn zipSrc binPath "/tmp" supply2 "arch.zip" "tool" twoTools =
      (.ok (), [(binPath, ⟨"FIRST", 0o744⟩), ("/tmp/t1", ⟨"OLDBIN", 0o755⟩), (zipSrc, ⟨"ZIPBYTES", 0o644⟩)]) :=
  ⟨by decide, by decide⟩

/-- Claim C1: in the direct-binary update path the running executable is
renamed to the temp path before the new content is written, and the new
file's mode is then set to 0744 (execute bit). Quantifying over every
environmental failure plan covers every point of the replacement — before
the rename, after a rename failure, after a write failure, after a chmod
failure, and after success — and in every such final state the pre-update
binary (content and mode) still exists on disk, at the executable path
before the rename and at the temp path after it: the system never has zero
executables on disk. On the all-steps-succeed plan the run returns ok, the
temp path holds the original, and the executable path holds the downloaded
body created with mode 0644 and then chmodded to 0744. -/
theorem downloadBinary_never_zero_executables
    (http : Http) (plan : FailPlan) (fs : FS)
    (tempDir uuid1 binaryPath : String) (config : UpdaterConfig) (binaryName : String)
    (orig : FileData) (body : String) (reqs : List String)
    (hx : fsLookup fs binaryPath = some orig)
    (hne : binaryPath ≠ filepathJoin tempDir uuid1)
    (hval : validateUrl (urlJoinPath config.BaseUrl binaryName) = .ok ())
    (hget : httpGet http (urlJoinPath config.BaseUrl binaryName) = (.ok body, reqs)) :
    (fsLookup (downloadBinary http plan fs tempDir uuid1 binaryPath config binaryName).2.2 binaryPath = some orig ∨
     fsLookup (downloadBinary http plan fs tempDir uuid1 binaryPath config binaryName).2.2 (filepathJoin tempDir uuid1) = some orig) ∧
    downloadBinary http ⟨false, false, false⟩ fs tempDir uuid1 binaryPath config binaryName =
      (.ok (), reqs,
        fsSet (fsSet (fsSet (fsRemoveAll fs binaryPath) (filepathJoin tempDir uuid1) orig)
          binaryPath ⟨body, 0o644⟩) binaryPath ⟨body, 0o744⟩) := by
  have hne2 : filepathJoin tempDir uuid1 ≠ binaryPath := fun hc => hne hc.symm
  have hren : fsRename fs binaryPath (filepathJoin tempDir uuid1) =
      .ok (fsSet (fsRemoveAll fs binaryPath) (filepathJoin tempDir uuid1) orig) := by
    unfold fsRename
    rw [hx]
  have hl1 : fsLookup (fsSet (fsRemoveAll fs binaryPath) (filepathJoin tempDir uuid1) orig) binaryPath = none := by
    rw [fsLookup_set_other (fsRemoveAll fs binaryPath) (filepathJoin tempDir uuid1) binaryPath orig hne]
    exact fsLookup_removeAll_self fs binaryPath
  have hw : fsWriteFile (fsSet (fsRemoveAll fs binaryPath) (filepathJoin tempDir uuid1) orig) binaryPath body 0o644 =
      fsSet (fsSet (fsRemoveAll fs binaryPath) (filepathJoin tempDir uuid1) orig) binaryPath ⟨body, 0o644⟩ := by
    unfold fsWriteFile
    rw [hl1]
  have hl2 : fsLookup (fsSet (fsSet (fsRemoveAll fs binaryPath) (filepathJoin tempDir uuid1) orig) binaryPath ⟨body, 0o644⟩) binaryPath =
      some ⟨body, 0o644⟩ :=
    fsLookup_set_self _ binaryPath ⟨body, 0o644⟩
  have hch : fsChmod (fsSet (fsSet (fsRemoveAll fs binaryPath) (filepathJoin tempDir uuid1) orig) binaryPath ⟨body, 0o644⟩) binaryPath 0o744 =
      .ok (fsSet (fsSet (fsSet (fsRemoveAll fs binaryPath) (filepathJoin tempDir uuid1) orig) binaryPath ⟨body, 0o644⟩) binaryPath ⟨body, 0o744⟩) := by
    unfold fsChmod
    rw [hl2]
  have p1 : fsLookup (fsSet (fsRemoveAll fs binaryPath) (filepathJoin tempDir uuid1) orig) (filepathJoin tempDir uuid1) = some orig :=
    fsLookup_set_self _ _ orig
  have p2 : fsLookup (fsSet (fsSet (fsRemoveAll fs binaryPath) (filepathJoin tempDir uuid1) orig) binaryPath ⟨body, 0o644⟩) (filepathJoin tempDir uuid1) = some orig := by
    rw [fsLookup_set_other _ binaryPath (filepathJoin tempDir uuid1) ⟨body, 0o644⟩ hne2]
    exact p1
  have p3 : fsLookup (fsSet (fsSet (fsSet (fsRemoveAll fs binaryPath) (filepathJoin tempDir uuid1) orig) binaryPath ⟨body, 0o644⟩) binaryPath ⟨body, 0o744⟩) (filepathJoin tempDir uuid1) = some orig := by
    rw [fsLookup_set_other _ binaryPath (filepathJoin tempDir uuid1) ⟨body, 0o744⟩ hne2]
    exact p2
  have hB : downloadBinary http ⟨false, false, false⟩ fs tempDir uuid1 binaryPath config binaryName =
      (.ok (), reqs,
        fsSet (fsSet (fsSet (fsRemoveAll fs binaryPath) (filepathJoin tempDir uuid1) orig)
          binaryPath ⟨body, 0o644⟩) binaryPath ⟨body, 0o744⟩) := by
    simp only [downloadBinary, hval, hget, hren, hw, hch, Bool.false_eq_true, if_true, if_false]
  refine ⟨?_, hB⟩
  rcases plan with ⟨fr, fw, fc⟩
  cases fr
  · cases fw
    · cases fc
      · rw [hB]
        exact Or.inr p3
      · have hE : downloadBinary http ⟨false, false, true⟩ fs tempDir uuid1 binaryPath config binaryName =
            (.error (.errorMsg "chmod failed"), reqs,
              fsSet (fsSet (fsRemoveAll fs binaryPath) (filepathJoin tempDir uuid1) orig) binaryPath ⟨body, 0o644⟩) := by
          simp only [downloadBinary, hval, hget, hren, hw, Bool.false_eq_true, if_true, if_false]
        rw [hE]
        exact Or.inr p2
    · have hE : downloadBinary http ⟨false, true, fc⟩ fs tempDir uuid1 binaryPath config binaryName =
          (.error (.errorMsg "write failed"), reqs,
            fsSet (fsRemoveAll fs binaryPath) (filepathJoin tempDir uuid1) orig) := by
        simp only [downloadBinary, hval, hget, hren, Bool.false_eq_true, if_true, if_false]
      rw [hE]
      exact Or.inr p1
  · have hE : downloadBinary http ⟨true, fw, fc⟩ fs tempDir uuid1 binaryPath config binaryName =
        (.error (.errorMsg "rename failed"), reqs, fs) := by
      simp only [downloadBinary, hval, hget, Bool.false_eq_true, if_true, if_false]
    rw [hE]
    exact Or.inl hx

/-- Witness for C1 at a concrete input, with the environment failing the
write step: the pre-update binary survives at the temp path. -/
theorem downloadBinary_never_zero_executables_witness :
    (fsLookup (downloadBinary http0 ⟨false, true, false⟩ fs0 "/tmp" "uuid-1" binPath cfg0 "tool").2.2 binPath =
       some ⟨"OLDBIN", 0o755⟩ ∨
     fsLookup (downloadBinary http0 ⟨false, true, false⟩ fs0 "/tmp" "uuid-1" binPath cfg0 "tool").2.2
       (filepathJoin "/tmp" "uuid-1") = some ⟨"OLDBIN", 0o755⟩) ∧
    downloadBinary http0 ⟨false, false, false⟩ fs0 "/tmp" "uuid-1" binPath cfg0 "tool" =
      (.ok (), [turl],
        fsSet (fsSet (fsSet (fsRemoveAll fs0 binPath) (filepathJoin "/tmp" "uuid-1") ⟨"OLDBIN", 0o755⟩)
          binPath ⟨"NEWBIN", 0o644⟩) binPath ⟨"NEWBIN", 0o744⟩) :=
  downloadBinary_never_zero_executables http0 ⟨false, true, false⟩ fs0 "/tmp" "uuid-1" binPath cfg0
    "tool" ⟨"OLDBIN", 0o755⟩ "NEWBIN" [turl] (by decide) (by decide) (by decide) (by decide)

/-- Claim C10: `Update` never consults the configured current version — its
result is identical for any two values of `CurrentVersion` (including the
blank one) — and on the concrete scenario whose trimmed current version
EQUALS the trimmed manifest version it still downloads the artifact and
replaces the executable (new content, mode 0744, original parked in the
temp directory); the version comparison lives only in
`CheckForAvailableUpdate`. -/
theorem update_ignores_current_version :
    (∀ (http : Http) (unmarshal : String → Except String UpdaterManifest)
       (goos goarch : String) (plan : FailPlan) (fs : FS)
       (tempDir binaryPath uuid1 : String) (supply : List (String × String))
       (decodeArchive : String → List ArchiveEntry) (v1 v2 base man : String),
       Update http unmarshal goos goarch plan fs tempDir binaryPath uuid1 supply decodeArchive ⟨v1, base, man⟩ =
       Update http unmarshal goos goarch plan fs tempDir binaryPath uuid1 supply decodeArchive ⟨v2, base, man⟩) ∧
    trimSpace cfg0.CurrentVersion = trimSpace m0.Version ∧
    Update http0 um0 "linux" "amd64" planOk fs0 "/tmp" binPath "uuid-1" [] noEntries cfg0 =
      (.ok (), [murl, turl], [(binPath, ⟨"NEWBIN", 0o744⟩), ("/tmp/uuid-1", ⟨"OLDBIN", 0o755⟩)]) ∧
    Update http0 um0 "linux" "amd64" planOk fs0 "/tmp" binPath "uuid-1" [] noEntries
        ⟨"", "https://example.com", "updater.config.json"⟩ =
      (.ok (), [murl, turl], [(binPath, ⟨"NEWBIN", 0o744⟩), ("/tmp/uuid-1", ⟨"OLDBIN", 0o755⟩)]) :=
  ⟨fun _ _ _ _ _ _ _ _ _ _ _ _ _ _ _ => rfl, by decide, by decide, by decide⟩
